import Mathlib

/-!
Verification of the contract-analysis pipeline of `backend/server.py`.

The development shallowly embeds the Python source:

* Python `str` values become Lean `String`s; character-level operations of the
  standard library (`str.split()`, `str.strip()`, `str.lower()`,
  `str.endswith`) are re-implemented on `List Char` with Python's semantics
  (code-point level, whitespace per `str.isspace` restricted to the ASCII
  whitespace class that occurs in practice).
* `json.loads` is modelled by `jsonLoads`, a strict fuel-based decoder for the
  JSON grammar restricted to integer numerals and the string escapes
  `\" \\ \n \t` (the fragment is irrelevant to the control-flow claims, which
  hold for every response string).
* `re.search(r'\[.*\]', response, re.DOTALL)` is modelled by `bracketSlice`:
  the leftmost-longest match of that pattern is exactly the segment from the
  first `[` of the string to its last `]`, when a `]` occurs after the
  first `[`.
* The external collaborators (the LLM chat, pdfplumber, MongoDB) are
  parameters: the oracle is a function from call index and prompt to a
  transport result, PDF text assembly is a function from the raw bytes to a
  result, and the store is threaded explicitly as a list of records.

Functions keep the names of the Python functions they embed
(`extract_text_from_pdf`, `analyze_contract_with_llm`, `upload_contract`,
`max_chunk_size`).
-/

namespace ContractAnalyzer

/-! ### Python string primitives -/

/-- Whitespace class used by Python's `str.split()` / `str.strip()`
(ASCII part of `str.isspace`). -/
def isPySpace (c : Char) : Bool :=
  c == ' ' || c == '\t' || c == '\n' || c == '\r' || c == '\x0b' || c == '\x0c'

/-- Python `str.strip()` on the character list. -/
def pyStripL (l : List Char) : List Char :=
  ((l.dropWhile isPySpace).reverse.dropWhile isPySpace).reverse

/-- Python `str.strip()`. -/
def pyStrip (s : String) : String := (pyStripL s.data).asString

/-- Python `str.lower()` (ASCII case folding). -/
def pyLower (s : String) : String := (s.data.map Char.toLower).asString

/-- Python `str.endswith(suffix)`. -/
def pyEndsWith (s suf : String) : Bool := suf.data.isSuffixOf s.data

/-- Accumulator pass of Python `str.split()`: cut at whitespace runs,
dropping empty pieces. `acc` holds the current word reversed. -/
def splitWsAux : List Char → List Char → List (List Char)
  | [], acc => if acc.isEmpty then [] else [acc.reverse]
  | c :: cs, acc =>
    if isPySpace c then
      if acc.isEmpty then splitWsAux cs [] else acc.reverse :: splitWsAux cs []
    else
      splitWsAux cs (c :: acc)

/-- Python `str.split()` (no argument: split on whitespace runs) on a
character list. -/
def splitWs (l : List Char) : List (List Char) := splitWsAux l []

/-- Python `str.split()` returning strings. -/
def pySplit (s : String) : List String := (splitWs s.data).map List.asString

/-- Python `" ".join(words)` on character lists. -/
def joinWs : List (List Char) → List Char
  | [] => []
  | [w] => w
  | w :: ws => w ++ ' ' :: joinWs ws

/-! ### The chunker (server.py lines 113-134) -/

/-- The `max_chunk_size = 15000` constant of `analyze_contract_with_llm`. -/
def max_chunk_size : Nat := 15000

/-- The word-packing loop of `analyze_contract_with_llm` (lines 122-132):
walk the words, flushing the accumulated chunk whenever the running length
plus the next word would exceed the budget and the accumulation is
non-empty. `cur` is `current_chunk`, `curLen` is `current_length`. -/
def packWords (budget : Nat) : List (List Char) → List (List Char) → Nat →
    List (List (List Char))
  | [], cur, _ => if cur.isEmpty then [] else [cur]
  | w :: ws, cur, curLen =>
    if curLen + w.length > budget ∧ cur ≠ [] then
      cur :: packWords budget ws [w] w.length
    else
      packWords budget ws (cur ++ [w]) (curLen + w.length + 1)

/-- The chunking step of `analyze_contract_with_llm` (lines 113-134): if the
text exceeds the budget, split into word-packed chunks joined by single
spaces; otherwise the text itself is the single chunk. -/
def chunkText (budget : Nat) (text : String) : List String :=
  if text.length > budget then
    (packWords budget (splitWs text.data) [] 0).map fun g => (joinWs g).asString
  else
    [text]

/-! ### JSON values and the strict decoder modelling `json.loads` -/

/-- A decoded JSON value (Python: the result of `json.loads`; `arr` is a
Python `list`, `obj` a `dict`). -/
inductive Json where
  | null : Json
  | bool : Bool → Json
  | num : Int → Json
  | str : String → Json
  | arr : List Json → Json
  | obj : List (String × Json) → Json

/-- JSON structural whitespace. -/
def skipWs (l : List Char) : List Char :=
  l.dropWhile fun c => c == ' ' || c == '\t' || c == '\n' || c == '\r'

/-- Reads a run of decimal digits, accumulating their value. -/
def digitsToNat : Nat → List Char → Nat × List Char
  | acc, c :: cs =>
    if c.isDigit then digitsToNat (acc * 10 + (c.toNat - 48)) cs else (acc, c :: cs)
  | acc, [] => (acc, [])

/-- Decodes an integer numeral (optionally signed). The model restricts JSON
numbers to integers; the pipeline never inspects numeric values. -/
def pNumber : List Char → Except Unit (Int × List Char)
  | '-' :: c :: cs =>
    if c.isDigit then
      let (n, r) := digitsToNat 0 (c :: cs)
      Except.ok (-(n : Int), r)
    else Except.error ()
  | c :: cs =>
    if c.isDigit then
      let (n, r) := digitsToNat 0 (c :: cs)
      Except.ok ((n : Int), r)
    else Except.error ()
  | [] => Except.error ()

/-- Decodes the body of a JSON string after the opening quote, supporting the
escapes `\" \\ \n \t`. `acc` holds the decoded characters reversed. -/
def pString : List Char → List Char → Except Unit (String × List Char)
  | '"' :: cs, acc => Except.ok (acc.reverse.asString, cs)
  | '\\' :: c :: cs, acc =>
    if c = '"' then pString cs ('"' :: acc)
    else if c = '\\' then pString cs ('\\' :: acc)
    else if c = 'n' then pString cs ('\n' :: acc)
    else if c = 't' then pString cs ('\t' :: acc)
    else Except.error ()
  | ['\\'], _ => Except.error ()
  | c :: cs, acc => pString cs (c :: acc)
  | [], _ => Except.error ()

mutual

/-- Decodes one JSON value; fuel bounds recursion depth so totality is
structural. -/
def pValue : Nat → List Char → Except Unit (Json × List Char)
  | 0, _ => Except.error ()
  | fuel + 1, l =>
    match skipWs l with
    | 'n' :: 'u' :: 'l' :: 'l' :: r => Except.ok (Json.null, r)
    | 't' :: 'r' :: 'u' :: 'e' :: r => Except.ok (Json.bool true, r)
    | 'f' :: 'a' :: 'l' :: 's' :: 'e' :: r => Except.ok (Json.bool false, r)
    | '"' :: r => do
      let (s, r2) ← pString r []
      Except.ok (Json.str s, r2)
    | '[' :: r =>
      (match skipWs r with
       | ']' :: r2 => Except.ok (Json.arr [], r2)
       | _ => do
         let (v, r2) ← pValue fuel r
         let (vs, r3) ← pArrTail fuel r2
         Except.ok (Json.arr (v :: vs), r3))
    | '{' :: r =>
      (match skipWs r with
       | '}' :: r2 => Except.ok (Json.obj [], r2)
       | _ => do
         let (kv, r2) ← pMember fuel r
         let (kvs, r3) ← pObjTail fuel r2
         Except.ok (Json.obj (kv :: kvs), r3))
    | r => do
      let (n, r2) ← pNumber r
      Except.ok (Json.num n, r2)

/-- Decodes one `"key": value` object member. -/
def pMember : Nat → List Char → Except Unit ((String × Json) × List Char)
  | 0, _ => Except.error ()
  | fuel + 1, l =>
    match skipWs l with
    | '"' :: r => do
      let (k, r2) ← pString r []
      match skipWs r2 with
      | ':' :: r3 => do
        let (v, r4) ← pValue fuel r3
        Except.ok ((k, v), r4)
      | _ => Except.error ()
    | _ => Except.error ()

/-- Decodes the `, value ... ]` tail of an array. -/
def pArrTail : Nat → List Char → Except Unit (List Json × List Char)
  | 0, _ => Except.error ()
  | fuel + 1, l =>
    match skipWs l with
    | ']' :: r => Except.ok ([], r)
    | ',' :: r => do
      let (v, r2) ← pValue fuel r
      let (vs, r3) ← pArrTail fuel r2
      Except.ok (v :: vs, r3)
    | _ => Except.error ()

/-- Decodes the `, "key": value ... }` tail of an object. -/
def pObjTail : Nat → List Char → Except Unit (List (String × Json) × List Char)
  | 0, _ => Except.error ()
  | fuel + 1, l =>
    match skipWs l with
    | '}' :: r => Except.ok ([], r)
    | ',' :: r => do
      let (kv, r2) ← pMember fuel r
      let (kvs, r3) ← pObjTail fuel r2
      Except.ok (kv :: kvs, r3)
    | _ => Except.error ()

end

/-- Model of strict `json.loads`: decode one value and require only
whitespace to remain. Any decoding failure is the `JSONDecodeError` case. -/
def jsonLoads (s : String) : Except Unit Json :=
  match pValue (2 * s.data.length + 2) s.data with
  | Except.ok (v, rest) => if (skipWs rest).isEmpty then Except.ok v else Except.error ()
  | Except.error _ => Except.error ()

/-! ### The recovery regex and the per-chunk response parsing
(server.py lines 155-174) -/

/-- Model of `re.search(r'\[.*\]', response, re.DOTALL).group()`: the
leftmost-longest match of that pattern is the segment from the first `[`
to the last `]` of the string, and a match exists exactly when some `]`
occurs after the first `[`. -/
def bracketSlice (l : List Char) : Option (List Char) :=
  if (((l.dropWhile fun c => c != '[').reverse.dropWhile fun c => c != ']').reverse) = [] then
    none
  else
    some (((l.dropWhile fun c => c != '[').reverse.dropWhile fun c => c != ']').reverse)

/-- The per-chunk response handling of `analyze_contract_with_llm`
(lines 155-174): strict parse of the stripped response; when it raises,
bracket-extraction and a second strict parse; any non-array outcome
contributes nothing, and no failure escapes. -/
def parseChunkFindings (response : String) : List Json :=
  match jsonLoads (pyStrip response) with
  | Except.ok (Json.arr xs) => xs
  | Except.ok _ => []
  | Except.error _ =>
    match bracketSlice response.data with
    | some sub =>
      (match jsonLoads sub.asString with
       | Except.ok (Json.arr xs) => xs
       | _ => [])
    | none => []

/-! ### The analysis pipeline (server.py lines 107-180) -/

/-- The per-chunk prompt of `analyze_contract_with_llm` (lines 139-150),
with `idx` standing for the 1-based `i+1` and `total` for `len(chunks)`. -/
def buildPrompt (chunk : String) (idx total : Nat) : String :=
  "Analyze the following contract text for risky or unfavorable clauses:\n\n"
    ++ chunk ++
    "\n\nReturn your analysis as a valid JSON array. Each risky clause should be an object with exactly these fields:\n- clause_text: The exact problematic text\n- issue_detected: Brief issue title\n- explanation: Why it's risky in plain language\n- suggested_alternative: Better alternative clause\n- risk_level: \"High\", \"Medium\", or \"Low\"\n\nIf this is chunk "
    ++ toString idx ++ " of " ++ toString total ++ ", focus on complete clauses only."

/-- The chunk loop of `analyze_contract_with_llm` (lines 136-176). The
external LLM is the `oracle` parameter, taking the call index and the prompt
and returning either the raw response text or a transport-level failure; `i`
is the loop counter, `total` is `len(chunks)`. Each chunk's findings are
appended in order; a transport failure aborts the loop. -/
def runChunks (oracle : Nat → String → Except String String) (total : Nat) :
    Nat → List String → Except String (List Json)
  | _, [] => Except.ok []
  | i, chunk :: rest =>
    match oracle i (buildPrompt chunk (i + 1) total) with
    | Except.error e => Except.error e
    | Except.ok response =>
      match runChunks oracle total (i + 1) rest with
      | Except.error e => Except.error e
      | Except.ok tail => Except.ok (parseChunkFindings response ++ tail)

/-- An HTTP error response (FastAPI's HTTPException). -/
structure HTTPError where
  status : Nat
  detail : String
deriving DecidableEq

/-- The analysis record: models the `analysis_data` dict assembled at lines
215-220 (which `insert_one` persists verbatim) and carries the data of the
pydantic `ContractAnalysisResult` response model; `id` and `processed_at`
are supplied by the caller standing for `uuid.uuid4()` and `datetime.now`.
The pydantic element constraint `analysis_results: List[dict]` is not part
of this raw structure: it is enforced exactly where the code enforces it, at
the line-224 construction `ContractAnalysisResult(**analysis_data)`,
modelled by the `isDict` check inside `upload_contract`. -/
structure ContractAnalysisResult where
  id : String
  filename : String
  analysis_results : List Json
  processed_at : String

/-- Model of `analyze_contract_with_llm` (lines 107-180): the missing-key
failure of `get_llm_chat` and any transport failure of the loop are caught by
the outer handler and re-raised as status 500 with the
`Analysis failed: ` detail. -/
def analyze_contract_with_llm (apiKey : Option String)
    (oracle : Nat → String → Except String String) (contract_text : String) :
    Except HTTPError (List Json) :=
  match apiKey with
  | none => Except.error ⟨500, "Analysis failed: LLM API key not configured"⟩
  | some _ =>
    match runChunks oracle (chunkText max_chunk_size contract_text).length 0
        (chunkText max_chunk_size contract_text) with
    | Except.ok findings => Except.ok findings
    | Except.error e => Except.error ⟨500, "Analysis failed: " ++ e⟩

/-- Model of `extract_text_from_pdf` (lines 89-105): `pdfplumberText` stands
for the pdfplumber page-text assembly over the raw bytes (the accumulated
`text` before `strip()`); a library failure is caught and re-raised as
status 400 with the `Error processing PDF: ` detail. -/
def extract_text_from_pdf (pdfplumberText : List Nat → Except String String)
    (file_content : List Nat) : Except HTTPError String :=
  match pdfplumberText file_content with
  | Except.ok text => Except.ok (pyStrip text)
  | Except.error e => Except.error ⟨400, "Error processing PDF: " ++ e⟩

/-- The request handling of `upload_contract` (lines 187-220) up to the
`analysis_data` dict to insert: the validation checks in source order,
extraction, analysis, and assembly of the record data from `newId`
(`uuid.uuid4()`) and `now` (`datetime.now(timezone.utc).isoformat()`).
Insertion and the response-model validation of line 224 happen afterwards,
in `upload_contract`. -/
def uploadCore (apiKey : Option String)
    (oracle : Nat → String → Except String String)
    (pdfplumberText : List Nat → Except String String)
    (newId now filename : String) (file_content : List Nat) :
    Except HTTPError ContractAnalysisResult :=
  if pyEndsWith (pyLower filename) ".pdf" = false then
    Except.error ⟨400, "Only PDF files are currently supported"⟩
  else if filename = "" then
    Except.error ⟨400, "No filename provided"⟩
  else if file_content.length = 0 then
    Except.error ⟨400, "Empty file uploaded"⟩
  else
    match extract_text_from_pdf pdfplumberText file_content with
    | Except.error e => Except.error e
    | Except.ok contract_text =>
      if pyStrip contract_text = "" then
        Except.error ⟨400, "No text could be extracted from the PDF"⟩
      else
        match analyze_contract_with_llm apiKey oracle contract_text with
        | Except.error e => Except.error e
        | Except.ok analysis_results =>
          Except.ok ⟨newId, filename, analysis_results, now⟩

/-- The pydantic element constraint of the response model
(`analysis_results: List[dict]`, line 43): an element validates exactly when
it is a JSON object. Field names and contents are not inspected — `dict`
imposes no schema on keys or values. -/
def isDict : Json → Bool
  | Json.obj _ => true
  | _ => false

/-- Stands for `str(e)` of the pydantic ValidationError raised by
`ContractAnalysisResult(**analysis_data)` (line 224) when an element of
`analysis_results` is not a dict. No claim depends on its content, only on
the `Processing failed: ` prefix the handler at line 230 prepends. -/
def pydantic_error_message : String :=
  "1 validation error for ContractAnalysisResult"

/-- Model of the `POST /upload-contract` endpoint (lines 187-230). On the
success path the record dict is first inserted into the store
(`db.contract_analyses`, threaded as a list; `insert_one`, line 222) and
only then validated against the pydantic response model
(`ContractAnalysisResult(**analysis_data)`, line 224): when every element of
`analysis_results` is a dict the record is returned; otherwise the
ValidationError escapes to the outer handler (lines 228-230) and the request
fails 500 `Processing failed: ...` — with the record left persisted. On any
HTTPError raised before insertion the store is untouched. -/
def upload_contract (apiKey : Option String)
    (oracle : Nat → String → Except String String)
    (pdfplumberText : List Nat → Except String String)
    (newId now filename : String) (file_content : List Nat)
    (store : List ContractAnalysisResult) :
    Except HTTPError ContractAnalysisResult × List ContractAnalysisResult :=
  match uploadCore apiKey oracle pdfplumberText newId now filename file_content with
  | Except.ok record =>
    if record.analysis_results.all isDict then
      (Except.ok record, store ++ [record])
    else
      (Except.error ⟨500, "Processing failed: " ++ pydantic_error_message⟩,
       store ++ [record])
  | Except.error e => (Except.error e, store)

/-! ### Finding shape (spec section 3; the `ClauseAnalysis` model of
server.py lines 50-55, which the pipeline never applies) -/

/-- Field lookup in a decoded JSON object. -/
def getField (fields : List (String × Json)) (k : String) : Option Json :=
  (fields.find? fun kv => kv.1 == k).map fun kv => kv.2

/-- Whether a key is present with a string value. -/
def isStrField (fields : List (String × Json)) (k : String) : Bool :=
  match getField fields k with
  | some (Json.str _) => true
  | _ => false

/-- The Finding invariant of the spec: an object whose five fields are all
strings and whose `risk_level` is one of the three enumerated values. -/
def validFinding : Json → Bool
  | Json.obj fields =>
    isStrField fields "clause_text" && isStrField fields "issue_detected" &&
    isStrField fields "explanation" && isStrField fields "suggested_alternative" &&
    (match getField fields "risk_level" with
     | some (Json.str r) => r == "High" || r == "Medium" || r == "Low"
     | _ => false)
  | _ => false

/-! ### Lemmas about `str.split()` and space-joining -/

/-- Every word produced by the split is non-empty and whitespace-free. -/
theorem splitWsAux_words (l : List Char) :
    ∀ acc, (∀ c ∈ acc, isPySpace c = false) →
      ∀ w ∈ splitWsAux l acc, w ≠ [] ∧ ∀ c ∈ w, isPySpace c = false := by
  induction l with
  | nil =>
    intro acc hacc w hw
    simp only [splitWsAux] at hw
    split at hw
    · simp at hw
    · next h =>
      simp only [List.mem_singleton] at hw
      subst hw
      refine ⟨?_, ?_⟩
      · simp only [ne_eq, List.reverse_eq_nil_iff]
        simpa [List.isEmpty_iff] using h
      · intro c hc
        exact hacc c (List.mem_reverse.mp hc)
  | cons c cs ih =>
    intro acc hacc w hw
    simp only [splitWsAux] at hw
    by_cases hc : isPySpace c
    · rw [if_pos hc] at hw
      split at hw
      · exact ih [] (by simp) w hw
      · next h =>
        rcases List.mem_cons.mp hw with rfl | hw'
        · refine ⟨?_, ?_⟩
          · simp only [ne_eq, List.reverse_eq_nil_iff]
            simpa [List.isEmpty_iff] using h
          · intro x hx
            exact hacc x (List.mem_reverse.mp hx)
        · exact ih [] (by simp) w hw'
    · rw [if_neg hc] at hw
      refine ih (c :: acc) ?_ w hw
      intro x hx
      rcases List.mem_cons.mp hx with rfl | hx'
      · exact Bool.eq_false_iff.mpr hc
      · exact hacc x hx'

/-- Every word of `splitWs` is non-empty and whitespace-free. -/
theorem splitWs_words (l : List Char) :
    ∀ w ∈ splitWs l, w ≠ [] ∧ ∀ c ∈ w, isPySpace c = false :=
  splitWsAux_words l [] (by simp)

/-- Feeding a whitespace-free run into the split accumulates it whole. -/
theorem splitWsAux_push (w : List Char) :
    ∀ acc rest, (∀ c ∈ w, isPySpace c = false) →
      splitWsAux (w ++ rest) acc = splitWsAux rest (w.reverse ++ acc) := by
  induction w with
  | nil => intro acc rest _; simp
  | cons c cs ih =>
    intro acc rest hw
    have hc : isPySpace c = false := hw c (by simp)
    have hstep : splitWsAux (c :: (cs ++ rest)) acc = splitWsAux (cs ++ rest) (c :: acc) := by
      simp [splitWsAux, hc]
    calc splitWsAux ((c :: cs) ++ rest) acc
        = splitWsAux (cs ++ rest) (c :: acc) := hstep
      _ = splitWsAux rest (cs.reverse ++ (c :: acc)) :=
          ih (c :: acc) rest fun x hx => hw x (by simp [hx])
      _ = splitWsAux rest ((c :: cs).reverse ++ acc) := by simp

/-- Splitting the space-join of non-empty whitespace-free words recovers the
words: the round trip behind never-splitting-mid-word. -/
theorem splitWs_joinWs : ∀ g : List (List Char),
    (∀ w ∈ g, w ≠ [] ∧ ∀ c ∈ w, isPySpace c = false) → splitWs (joinWs g) = g := by
  intro g
  induction g with
  | nil => intro _; rfl
  | cons w ws ih =>
    intro hg
    have hw := hg w (by simp)
    cases ws with
    | nil =>
      show splitWsAux (joinWs [w]) [] = [w]
      have : joinWs [w] = w ++ [] := by simp [joinWs]
      rw [this, splitWsAux_push w [] [] hw.2]
      simp only [splitWsAux, List.append_nil]
      rw [if_neg (by simpa [List.isEmpty_iff, List.reverse_eq_nil_iff] using hw.1)]
      simp
    | cons x ws' =>
      show splitWsAux (joinWs (w :: x :: ws')) [] = w :: x :: ws'
      have hstep : joinWs (w :: x :: ws') = w ++ ' ' :: joinWs (x :: ws') := rfl
      rw [hstep, splitWsAux_push w [] (' ' :: joinWs (x :: ws')) hw.2]
      have hsp : isPySpace ' ' = true := rfl
      simp only [splitWsAux, List.append_nil, hsp, if_true]
      rw [if_neg (by simpa [List.isEmpty_iff, List.reverse_eq_nil_iff] using hw.1)]
      rw [List.reverse_reverse]
      have := ih fun v hv => hg v (by simp [hv])
      rw [show splitWsAux (joinWs (x :: ws')) [] = splitWs (joinWs (x :: ws')) from rfl, this]

/-! ### Lemmas about the word-packing loop -/

/-- The packed groups concatenate to the pending accumulation followed by the
remaining words: no word is dropped, duplicated or reordered. -/
theorem packWords_flatten (budget : Nat) :
    ∀ (ws cur : List (List Char)) (curLen : Nat),
      (packWords budget ws cur curLen).flatten = cur ++ ws := by
  intro ws
  induction ws with
  | nil =>
    intro cur curLen
    simp only [packWords]
    split
    · next h => simp [List.isEmpty_iff.mp h]
    · simp
  | cons w ws ih =>
    intro cur curLen
    simp only [packWords]
    split
    · simp [List.flatten_cons, ih]
    · simp [ih]

/-- Emitted groups are never empty (for a non-empty accumulation). -/
theorem packWords_ne_nil (budget : Nat) :
    ∀ (ws cur : List (List Char)) (curLen : Nat), cur ≠ [] →
      ∀ g ∈ packWords budget ws cur curLen, g ≠ [] := by
  intro ws
  induction ws with
  | nil =>
    intro cur curLen hcur g hg
    simp only [packWords] at hg
    rw [if_neg (by simpa [List.isEmpty_iff] using hcur)] at hg
    simpa using List.mem_singleton.mp hg ▸ hcur
  | cons w ws ih =>
    intro cur curLen hcur g hg
    simp only [packWords] at hg
    split at hg
    · rcases List.mem_cons.mp hg with rfl | hg'
      · exact hcur
      · exact ih [w] w.length (by simp) g hg'
    · exact ih (cur ++ [w]) (curLen + w.length + 1) (by simp) g hg

/-- Emitted groups are never empty (top-level loop entry). -/
theorem packWords_ne_nil_start (budget : Nat) (ws : List (List Char)) :
    ∀ g ∈ packWords budget ws [] 0, g ≠ [] := by
  cases ws with
  | nil => simp [packWords]
  | cons w ws =>
    intro g hg
    simp only [packWords] at hg
    rw [if_neg (by simp)] at hg
    exact packWords_ne_nil budget ws ([] ++ [w]) (0 + w.length + 1) (by simp) g hg

/-- Space-joining after appending one word to a non-empty group. -/
theorem joinWs_append (w : List Char) :
    ∀ cur, cur ≠ [] → joinWs (cur ++ [w]) = joinWs cur ++ ' ' :: w := by
  intro cur
  induction cur with
  | nil => intro h; exact absurd rfl h
  | cons x cur' ih =>
    intro _
    cases cur' with
    | nil => rfl
    | cons y t =>
      show joinWs (x :: (y :: t ++ [w])) = joinWs (x :: y :: t) ++ ' ' :: w
      have h1 : joinWs (x :: (y :: t ++ [w])) = x ++ ' ' :: joinWs (y :: t ++ [w]) := rfl
      have h2 : joinWs (x :: y :: t) = x ++ ' ' :: joinWs (y :: t) := rfl
      rw [h1, h2, ih (by simp)]
      simp

/-- The budget discipline of the loop: a packed group of at least two words
space-joins to length at most `budget + 1`. The bound is tight: a group
started by a flush begins with `current_length = len(word)` (without the
`+ 1` separator allowance), so one later append may land exactly one
character over the budget. -/
theorem packWords_bound (budget : Nat) :
    ∀ (ws cur : List (List Char)) (curLen : Nat),
      (joinWs cur).length ≤ curLen →
      (2 ≤ cur.length → (joinWs cur).length ≤ budget + 1) →
      ∀ g ∈ packWords budget ws cur curLen,
        2 ≤ g.length → (joinWs g).length ≤ budget + 1 := by
  intro ws
  induction ws with
  | nil =>
    intro cur curLen _ h2 g hg hlen
    simp only [packWords] at hg
    split at hg
    · simp at hg
    · have hgc := List.mem_singleton.mp hg
      subst hgc
      exact h2 hlen
  | cons w ws ih =>
    intro cur curLen h1 h2 g hg hlen
    simp only [packWords] at hg
    split at hg
    · rcases List.mem_cons.mp hg with rfl | hg'
      · exact h2 hlen
      · refine ih [w] w.length (by simp [joinWs]) ?_ g hg' hlen
        intro habs
        simp at habs
    · next hguard =>
      refine ih (cur ++ [w]) (curLen + w.length + 1) ?_ ?_ g hg hlen
      · cases cur with
        | nil => simp only [List.nil_append, joinWs]; omega
        | cons x t =>
          rw [joinWs_append w _ (by simp)]
          have : (joinWs (x :: t) ++ ' ' :: w).length
              = (joinWs (x :: t)).length + (w.length + 1) := by simp
          omega
      · intro hlen2
        cases cur with
        | nil => simp at hlen2
        | cons x t =>
          have hle : curLen + w.length ≤ budget := by
            by_contra hgt
            exact hguard ⟨by omega, by simp⟩
          rw [joinWs_append w _ (by simp)]
          have : (joinWs (x :: t) ++ ' ' :: w).length
              = (joinWs (x :: t)).length + (w.length + 1) := by simp
          omega

/-! ### Chunk-level consequences -/

/-- Every chunk either space-joins at most `budget + 1` characters or is a
single word of the input (in particular an oversized word sits alone). -/
theorem chunkText_cases (budget : Nat) (text : String) :
    ∀ c ∈ chunkText budget text, c.length ≤ budget + 1 ∨ c ∈ pySplit text := by
  intro c hc
  unfold chunkText at hc
  split at hc
  · rcases List.mem_map.mp hc with ⟨g, hg, rfl⟩
    rcases Nat.lt_or_ge g.length 2 with hlen | hlen
    · right
      have hne := packWords_ne_nil_start budget (splitWs text.data) g hg
      match g, hne, hlen with
      | [w], _, _ =>
        have hwin : w ∈ splitWs text.data := by
          have hj : w ∈ (packWords budget (splitWs text.data) [] 0).flatten :=
            List.mem_flatten.mpr ⟨[w], hg, by simp⟩
          rwa [packWords_flatten, List.nil_append] at hj
        exact List.mem_map.mpr ⟨w, hwin, rfl⟩
    · left
      have hb := packWords_bound budget (splitWs text.data) [] 0
        (by simp [joinWs]) (by intro h; simp at h) g hg hlen
      exact hb
  · next hle =>
    left
    rcases List.mem_singleton.mp hc with rfl
    omega

/-- Word preservation: splitting every chunk back into words and
concatenating in chunk order recovers the input's word sequence. -/
theorem chunkText_words (budget : Nat) (text : String) :
    ((chunkText budget text).map pySplit).flatten = pySplit text := by
  unfold chunkText
  split
  · rw [List.map_map]
    have hmap : ∀ g ∈ packWords budget (splitWs text.data) [] 0,
        (pySplit ∘ fun g => (joinWs g).asString) g = g.map List.asString := by
      intro g hg
      show pySplit ((joinWs g).asString) = g.map List.asString
      have hdata : ((joinWs g).asString).data = joinWs g := rfl
      unfold pySplit
      rw [hdata, splitWs_joinWs g ?hws]
      case hws =>
        intro w hw
        have hwin : w ∈ splitWs text.data := by
          have hj : w ∈ (packWords budget (splitWs text.data) [] 0).flatten :=
            List.mem_flatten.mpr ⟨g, hg, hw⟩
          rwa [packWords_flatten, List.nil_append] at hj
        exact splitWs_words text.data w hwin
    rw [List.map_congr_left hmap]
    rw [← List.map_flatten, packWords_flatten, List.nil_append]
    rfl
  · simp

/-! ### Lemmas about the chunk loop -/

/-- When every oracle call succeeds, the loop returns the concatenation of
the per-chunk parsed finding lists, in chunk-index order. -/
theorem runChunks_ok (oracle : Nat → String → Except String String)
    (total : Nat) (responses : Nat → String)
    (hok : ∀ i p, oracle i p = Except.ok (responses i)) :
    ∀ (l : List String) (start : Nat),
      runChunks oracle total start l =
        Except.ok (((List.range l.length).map
          fun k => parseChunkFindings (responses (start + k))).flatten) := by
  intro l
  induction l with
  | nil => intro start; simp [runChunks]
  | cons c rest ih =>
    intro start
    simp only [runChunks, hok, ih (start + 1)]
    congr 1
    rw [List.length_cons, List.range_succ_eq_map]
    simp only [List.map_cons, List.map_map, List.flatten_cons, Nat.add_zero]
    refine congrArg (parseChunkFindings (responses start) ++ ·)
      (congrArg List.flatten (List.map_congr_left ?_))
    intro k _
    simp only [Function.comp_apply]
    rw [show start + 1 + k = start + Nat.succ k from by omega]

/-- A transport failure at any index of the remaining chunk list makes the
loop fail. -/
theorem runChunks_error (oracle : Nat → String → Except String String)
    (total : Nat) :
    ∀ (l : List String) (start : Nat),
      (∃ k, k < l.length ∧
        ∃ e, oracle (start + k) (buildPrompt (l.getD k "") (start + k + 1) total)
          = Except.error e) →
      ∃ e, runChunks oracle total start l = Except.error e := by
  intro l
  induction l with
  | nil =>
    intro start h
    rcases h with ⟨k, hk, -⟩
    simp at hk
  | cons c rest ih =>
    intro start h
    simp only [runChunks]
    cases horacle : oracle start (buildPrompt c (start + 1) total) with
    | error e => exact ⟨e, rfl⟩
    | ok response =>
      rcases h with ⟨k, hk, e, hke⟩
      cases k with
      | zero =>
        rw [Nat.add_zero] at hke
        simp only [List.getD_cons_zero] at hke
        rw [horacle] at hke
        cases hke
      | succ k' =>
        simp only [List.getD_cons_succ] at hke
        have hke' : oracle (start + 1 + k')
            (buildPrompt (rest.getD k' "") (start + 1 + k' + 1) total)
            = Except.error e := by
          rw [show start + 1 + k' = start + (k' + 1) from by omega]
          exact hke
        rcases ih (start + 1) ⟨k', by simpa using hk, e, hke'⟩ with ⟨e', he'⟩
        rw [he']
        exact ⟨e', rfl⟩

/-! ### Lemmas about bracket extraction -/

/-- Dropping up to the first occurrence of a character. -/
theorem dropWhile_ne_append (ch : Char) :
    ∀ (a b : List Char), (∀ x ∈ a, x ≠ ch) →
      (a ++ ch :: b).dropWhile (fun x => x != ch) = ch :: b := by
  intro a
  induction a with
  | nil => intro b _; simp [List.dropWhile]
  | cons x a ih =>
    intro b h
    have hx : x ≠ ch := h x (by simp)
    simp only [List.cons_append, List.dropWhile_cons]
    rw [if_pos (by simpa using hx)]
    exact ih b fun y hy => h y (by simp [hy])

/-- `bracketSlice` on a string decomposed around its first `[` and last `]`
returns exactly the inclusive segment between them. -/
theorem bracketSlice_decomp (pre mid post : List Char)
    (hpre : '[' ∉ pre) (hpost : ']' ∉ post) :
    bracketSlice (pre ++ '[' :: (mid ++ ']' :: post)) = some ('[' :: (mid ++ [']'])) := by
  unfold bracketSlice
  rw [dropWhile_ne_append '[' pre (mid ++ ']' :: post)
    (fun x hx heq => hpre (heq ▸ hx))]
  have hrev : ('[' :: (mid ++ ']' :: post)).reverse
      = post.reverse ++ ']' :: (mid.reverse ++ ['[']) := by
    simp
  rw [hrev, dropWhile_ne_append ']' post.reverse (mid.reverse ++ ['['])
    (fun x hx heq => hpost (heq ▸ List.mem_reverse.mp hx))]
  have hrev2 : (']' :: (mid.reverse ++ ['['])).reverse = '[' :: (mid ++ [']']) := by
    simp
  rw [hrev2]
  rw [if_neg (by simp)]

/-! ### Lemmas about the upload path -/

/-- Strings with distinct first characters differ, whatever is appended. -/
theorem prefixed_ne (c : Char) (p e t : String)
    (hp : p.data.head? = some c) (ht : t.data.head? ≠ some c) : p ++ e ≠ t := by
  intro h
  apply ht
  rw [← h]
  have hd : (p ++ e).data = p.data ++ e.data := by
    cases p; cases e; rfl
  cases hpd : p.data with
  | nil => rw [hpd] at hp; cases hp
  | cons a as =>
    rw [hpd] at hp
    simp only [List.head?_cons, Option.some.injEq] at hp
    rw [hd, hpd, hp]
    rfl

/-- A filename passing the extension check is non-empty. -/
theorem pdf_filename_ne_empty (filename : String)
    (h : pyEndsWith (pyLower filename) ".pdf" = true) : filename ≠ "" := by
  intro hfn
  subst hfn
  exact absurd h (by decide)

/-- Any failure of `extract_text_from_pdf` carries status 400 and the
`Error processing PDF: ` detail. -/
theorem extract_error_shape (pdfplumberText : List Nat → Except String String)
    (content : List Nat) (hx : HTTPError)
    (h : extract_text_from_pdf pdfplumberText content = Except.error hx) :
    ∃ msg, hx = ⟨400, "Error processing PDF: " ++ msg⟩ := by
  unfold extract_text_from_pdf at h
  cases hres : pdfplumberText content with
  | ok text => rw [hres] at h; cases h
  | error e =>
    rw [hres] at h
    cases h
    exact ⟨e, rfl⟩

/-- Any failure of `analyze_contract_with_llm` carries status 500 and the
`Analysis failed: ` detail. -/
theorem analyze_error_shape (apiKey : Option String)
    (oracle : Nat → String → Except String String) (text : String) (hx : HTTPError)
    (h : analyze_contract_with_llm apiKey oracle text = Except.error hx) :
    ∃ msg, hx = ⟨500, "Analysis failed: " ++ msg⟩ := by
  unfold analyze_contract_with_llm at h
  cases apiKey with
  | none =>
    cases h
    exact ⟨"LLM API key not configured", by rfl⟩
  | some k =>
    cases hrc : runChunks oracle (chunkText max_chunk_size text).length 0
        (chunkText max_chunk_size text) with
    | ok findings => rw [hrc] at h; cases h
    | error e =>
      rw [hrc] at h
      cases h
      exact ⟨e, rfl⟩

/-- On inputs passing every validation, `uploadCore` reduces to the analysis
outcome wrapped into a record. -/
theorem uploadCore_valid (apiKey : Option String)
    (oracle : Nat → String → Except String String)
    (pdfplumberText : List Nat → Except String String)
    (newId now filename : String) (content : List Nat) (raw : String)
    (hpdf : pyEndsWith (pyLower filename) ".pdf" = true)
    (hne : content.length ≠ 0)
    (hex : pdfplumberText content = Except.ok raw)
    (htext : pyStrip (pyStrip raw) ≠ "") :
    uploadCore apiKey oracle pdfplumberText newId now filename content =
      match analyze_contract_with_llm apiKey oracle (pyStrip raw) with
      | Except.error e => Except.error e
      | Except.ok rs => Except.ok ⟨newId, filename, rs, now⟩ := by
  unfold uploadCore
  rw [if_neg (by simp [hpdf]), if_neg (pdf_filename_ne_empty filename hpdf), if_neg hne]
  have hext : extract_text_from_pdf pdfplumberText content = Except.ok (pyStrip raw) := by
    unfold extract_text_from_pdf
    rw [hex]
  simp only [hext]
  rw [if_neg htext]

/-- No reachable error of `uploadCore` carries the `No filename provided`
detail: the empty-filename branch is shadowed by the extension check and
every other branch produces a different message. -/
theorem uploadCore_detail_ne (apiKey : Option String)
    (oracle : Nat → String → Except String String)
    (pdfplumberText : List Nat → Except String String)
    (newId now filename : String) (content : List Nat) (hx : HTTPError)
    (h : uploadCore apiKey oracle pdfplumberText newId now filename content
      = Except.error hx) :
    hx.detail ≠ "No filename provided" := by
  unfold uploadCore at h
  split at h
  · cases h
    decide
  · next hc1 =>
    split at h
    · next hc2 =>
      have hb : pyEndsWith (pyLower filename) ".pdf" = true := by
        cases hbv : pyEndsWith (pyLower filename) ".pdf" with
        | false => exact absurd hbv hc1
        | true => rfl
      exact absurd hc2 (pdf_filename_ne_empty filename hb)
    · split at h
      · cases h
        decide
      · cases hext : extract_text_from_pdf pdfplumberText content with
        | error e =>
          simp only [hext] at h
          cases h
          rcases extract_error_shape pdfplumberText content _ hext with ⟨msg, rfl⟩
          exact prefixed_ne 'E' "Error processing PDF: " msg "No filename provided" rfl
            (by decide)
        | ok contract_text =>
          simp only [hext] at h
          split at h
          · cases h
            decide
          · cases hana : analyze_contract_with_llm apiKey oracle contract_text with
            | ok rs => simp only [hana] at h; cases h
            | error e =>
              simp only [hana] at h
              cases h
              rcases analyze_error_shape apiKey oracle contract_text _ hana with ⟨msg, rfl⟩
              exact prefixed_ne 'A' "Analysis failed: " msg "No filename provided" rfl
                (by decide)

/-- `upload_contract` leaves the store unchanged on any error. -/
theorem upload_contract_error (apiKey : Option String)
    (oracle : Nat → String → Except String String)
    (pdfplumberText : List Nat → Except String String)
    (newId now filename : String) (content : List Nat)
    (store : List ContractAnalysisResult) (hx : HTTPError)
    (h : uploadCore apiKey oracle pdfplumberText newId now filename content
      = Except.error hx) :
    upload_contract apiKey oracle pdfplumberText newId now filename content store
      = (Except.error hx, store) := by
  unfold upload_contract
  rw [h]

/-! ### Claim theorems -/

/-- C7: for every non-empty trimmed text whose total length is at most the
chunk budget, the chunker returns exactly one chunk, equal to the full input
text, without invoking the splitting logic. -/
theorem c7_single_chunk (budget : Nat) (text : String)
    (htrim : pyStrip text = text) (hne : text ≠ "")
    (hlen : text.length ≤ budget) :
    chunkText budget text = [text] := by
  unfold chunkText
  rw [if_neg (by omega)]

/-- Witness for C7 at a concrete input. -/
theorem c7_single_chunk_witness :
    pyStrip "hi" = "hi" ∧ "hi" ≠ "" ∧ "hi".length ≤ 10 ∧ chunkText 10 "hi" = ["hi"] :=
  ⟨rfl, by decide, by decide, c7_single_chunk 10 "hi" rfl (by decide) (by decide)⟩

/-- C8: concatenating the whitespace-delimited words of all chunks in chunk
order reproduces the original text's word sequence — the chunker never
splits, drops, duplicates, or reorders a word. -/
theorem c8_words_preserved (budget : Nat) (text : String) :
    ((chunkText budget text).map pySplit).flatten = pySplit text :=
  chunkText_words budget text

/-- C4 counterexample: with budget 5 and input `wxyz abc de`, the chunk
`abc de` has length 6 > 5 although neither of its words exceeds the budget,
so the claimed per-chunk bound fails as stated. -/
theorem c4_counterexample :
    ¬ (∀ c ∈ chunkText 5 "wxyz abc de",
        c.length ≤ 5 ∨ ∃ w ∈ pySplit "wxyz abc de", c = w ∧ 5 < w.length) := by
  decide

/-- C4 amended: every chunk has length at most budget + 1 unless it is a
single (possibly oversized) word of the input, and chunks are never split
mid-word. -/
theorem c4_amended_bound (budget : Nat) (text : String) :
    (∀ c ∈ chunkText budget text, c.length ≤ budget + 1 ∨ c ∈ pySplit text) ∧
    ((chunkText budget text).map pySplit).flatten = pySplit text :=
  ⟨chunkText_cases budget text, chunkText_words budget text⟩

/-- Witness for C4 amended at a concrete input. -/
theorem c4_amended_bound_witness :
    ("abc de".length ≤ 5 + 1 ∨ "abc de" ∈ pySplit "wxyz abc de") ∧
    ((chunkText 5 "wxyz abc de").map pySplit).flatten = pySplit "wxyz abc de" :=
  ⟨(c4_amended_bound 5 "wxyz abc de").1 "abc de" (by decide),
   (c4_amended_bound 5 "wxyz abc de").2⟩

/-- C9: with every oracle call succeeding, the aggregated result is exactly
the concatenation of the per-chunk parsed finding lists in chunk-index
order, each chunk's findings kept in returned order — nothing deduplicated,
merged, or reordered. -/
theorem c9_concatenation (oracle : Nat → String → Except String String)
    (total : Nat) (responses : Nat → String)
    (hok : ∀ i p, oracle i p = Except.ok (responses i)) (chunks : List String) :
    runChunks oracle total 0 chunks =
      Except.ok (((List.range chunks.length).map
        fun k => parseChunkFindings (responses k)).flatten) := by
  have h := runChunks_ok oracle total responses hok chunks 0
  simpa using h

/-- Witness for C9 at a concrete input: the repeated response yields its
findings twice, preserved in order. -/
theorem c9_concatenation_witness :
    runChunks (fun _ _ => Except.ok "[7]") 2 0 ["a", "b"]
      = Except.ok (((List.range (["a", "b"] : List String).length).map
          fun _ => parseChunkFindings "[7]").flatten) :=
  c9_concatenation (fun _ _ => Except.ok "[7]") 2 (fun _ => "[7]")
    (fun _ _ => rfl) ["a", "b"]

/-- C2: a transport-level oracle failure on any chunk makes the whole upload
fail with a 500 and leaves the store unchanged — findings gathered from
earlier chunks are discarded, no record is persisted. -/
theorem c2_transport_failure_aborts (apiKey : String)
    (oracle : Nat → String → Except String String)
    (pdfplumberText : List Nat → Except String String)
    (newId now filename : String) (content : List Nat)
    (store : List ContractAnalysisResult) (raw : String)
    (hpdf : pyEndsWith (pyLower filename) ".pdf" = true)
    (hne : content.length ≠ 0)
    (hex : pdfplumberText content = Except.ok raw)
    (htext : pyStrip (pyStrip raw) ≠ "")
    (hfail : ∃ k, k < (chunkText max_chunk_size (pyStrip raw)).length ∧
      ∃ e, oracle k (buildPrompt ((chunkText max_chunk_size (pyStrip raw)).getD k "")
        (k + 1) (chunkText max_chunk_size (pyStrip raw)).length) = Except.error e) :
    ∃ hx, upload_contract (some apiKey) oracle pdfplumberText newId now filename
        content store = (Except.error hx, store) ∧ hx.status = 500 := by
  have hrc : ∃ e, runChunks oracle (chunkText max_chunk_size (pyStrip raw)).length 0
      (chunkText max_chunk_size (pyStrip raw)) = Except.error e := by
    apply runChunks_error
    rcases hfail with ⟨k, hk, e, he⟩
    exact ⟨k, hk, e, by simpa using he⟩
  rcases hrc with ⟨e, he⟩
  have hanalyze : analyze_contract_with_llm (some apiKey) oracle (pyStrip raw)
      = Except.error ⟨500, "Analysis failed: " ++ e⟩ := by
    unfold analyze_contract_with_llm
    simp only [he]
  have hcore : uploadCore (some apiKey) oracle pdfplumberText newId now filename content
      = Except.error ⟨500, "Analysis failed: " ++ e⟩ := by
    rw [uploadCore_valid (some apiKey) oracle pdfplumberText newId now filename content raw
      hpdf hne hex htext]
    simp only [hanalyze]
  exact ⟨⟨500, "Analysis failed: " ++ e⟩,
    upload_contract_error (some apiKey) oracle pdfplumberText newId now filename content
      store _ hcore, rfl⟩

/-- Witness for C2 at a concrete input. -/
theorem c2_transport_failure_aborts_witness :
    ∃ hx, upload_contract (some "k") (fun _ _ => Except.error "boom")
        (fun _ => Except.ok "hello") "id0" "t0" "a.pdf" [1] []
      = (Except.error hx, []) ∧ hx.status = 500 :=
  c2_transport_failure_aborts "k" (fun _ _ => Except.error "boom")
    (fun _ => Except.ok "hello") "id0" "t0" "a.pdf" [1] [] "hello"
    (by decide) (by decide) rfl (by decide)
    ⟨0, by decide, "boom", rfl⟩

/-- C3: per-chunk response parsing never fails — it is a total function into
finding lists — and on garbage or non-array content it returns the empty
list while the chunk loop simply continues with the next chunk. -/
theorem c3_parse_never_fails (response : String)
    (h1 : ∀ xs, jsonLoads (pyStrip response) ≠ Except.ok (Json.arr xs))
    (h2 : ∀ sub xs, bracketSlice response.data = some sub →
      jsonLoads sub.asString ≠ Except.ok (Json.arr xs)) :
    parseChunkFindings response = [] ∧
    ∀ (oracle : Nat → String → Except String String) (total i : Nat)
      (chunk : String) (rest : List String),
      oracle i (buildPrompt chunk (i + 1) total) = Except.ok response →
      runChunks oracle total i (chunk :: rest) = runChunks oracle total (i + 1) rest := by
  have hmain : parseChunkFindings response = [] := by
    unfold parseChunkFindings
    split
    · next xs heq => exact absurd heq (h1 xs)
    · rfl
    · split
      · next sub hbr =>
        split
        · next xs heq2 => exact absurd heq2 (h2 sub xs hbr)
        · rfl
      · rfl
  refine ⟨hmain, ?_⟩
  intro oracle total i chunk rest horacle
  simp only [runChunks, horacle, hmain]
  cases runChunks oracle total (i + 1) rest with
  | error e => rfl
  | ok tail => simp

/-- Witness for C3 at a concrete garbage response. -/
theorem c3_parse_never_fails_witness :
    parseChunkFindings "garbage" = [] ∧
    ∀ (oracle : Nat → String → Except String String) (total i : Nat)
      (chunk : String) (rest : List String),
      oracle i (buildPrompt chunk (i + 1) total) = Except.ok "garbage" →
      runChunks oracle total i (chunk :: rest) = runChunks oracle total (i + 1) rest := by
  apply c3_parse_never_fails
  · intro xs h
    rw [show jsonLoads (pyStrip "garbage") = Except.error () from rfl] at h
    exact Except.noConfusion h
  · intro sub xs hb
    rw [show bracketSlice "garbage".data = none from rfl] at hb
    exact Option.noConfusion hb

/-- C5: when the strict decode of the whole trimmed response fails, the
parser recovers the inclusive segment from the first `[` to the last `]`
and, if it strictly decodes as an array, returns that array's elements —
an array embedded in surrounding prose is recovered. -/
theorem c5_bracket_recovery (response : String) (pre mid post : List Char)
    (xs : List Json)
    (hdec : response.data = pre ++ '[' :: (mid ++ ']' :: post))
    (hpre : '[' ∉ pre) (hpost : ']' ∉ post)
    (hstrict : jsonLoads (pyStrip response) = Except.error ())
    (harr : jsonLoads ('[' :: (mid ++ [']'])).asString = Except.ok (Json.arr xs)) :
    parseChunkFindings response = xs := by
  unfold parseChunkFindings
  simp only [hstrict, hdec, bracketSlice_decomp pre mid post hpre hpost, harr]

/-- Witness for C5 at a concrete prose-wrapped response. -/
theorem c5_bracket_recovery_witness :
    parseChunkFindings "noise [1, 2] tail" = [Json.num 1, Json.num 2] :=
  c5_bracket_recovery "noise [1, 2] tail" "noise ".data "1, 2".data " tail".data
    [Json.num 1, Json.num 2] rfl (by decide) (by decide) rfl rfl

/-- C1 counterexample: the oracle response whose decoded array is the single
empty object passes the pydantic `List[dict]` check, so the upload succeeds:
the persisted and returned record contains the finding `{}` — an object with
no `risk_level` and none of the five string fields. -/
theorem c1_counterexample :
    (upload_contract (some "k") (fun _ _ => Except.ok "[\x7b\x7d]")
        (fun _ => Except.ok "hello") "id0" "t0" "a.pdf" [1] []).1
      = Except.ok ⟨"id0", "a.pdf", [Json.obj []], "t0"⟩ ∧
    (upload_contract (some "k") (fun _ _ => Except.ok "[\x7b\x7d]")
        (fun _ => Except.ok "hello") "id0" "t0" "a.pdf" [1] []).2
      = [⟨"id0", "a.pdf", [Json.obj []], "t0"⟩] ∧
    validFinding (Json.obj []) = false :=
  ⟨rfl, rfl, rfl⟩

/-- C1 amended: the only shape constraint the pipeline enforces is
pydantic's `List[dict]` on the response model, applied after persistence.
Every record the endpoint returns has all-object `analysis_results`, but the
fields and `risk_level` of those objects are never validated: on the valid
path the elements are exactly the decoded per-chunk arrays passed through
verbatim when all are objects, and when some element is not an object the
record is still persisted while the request fails 500 `Processing failed`. -/
theorem c1_amended_dict_only (apiKey : String)
    (oracle : Nat → String → Except String String)
    (pdfplumberText : List Nat → Except String String)
    (newId now filename : String) (content : List Nat)
    (store : List ContractAnalysisResult) (raw : String) (responses : Nat → String) :
    (∀ rec store',
      upload_contract (some apiKey) oracle pdfplumberText newId now filename content store
        = (Except.ok rec, store') → rec.analysis_results.all isDict = true) ∧
    ((∀ i p, oracle i p = Except.ok (responses i)) →
      pyEndsWith (pyLower filename) ".pdf" = true → content.length ≠ 0 →
      pdfplumberText content = Except.ok raw → pyStrip (pyStrip raw) ≠ "" →
      (((List.range (chunkText max_chunk_size (pyStrip raw)).length).map
          fun k => parseChunkFindings (responses k)).flatten).all isDict = true →
      upload_contract (some apiKey) oracle pdfplumberText newId now filename content store
        = (Except.ok ⟨newId, filename,
            ((List.range (chunkText max_chunk_size (pyStrip raw)).length).map
              fun k => parseChunkFindings (responses k)).flatten, now⟩,
           store ++ [⟨newId, filename,
            ((List.range (chunkText max_chunk_size (pyStrip raw)).length).map
              fun k => parseChunkFindings (responses k)).flatten, now⟩])) ∧
    ((∀ i p, oracle i p = Except.ok (responses i)) →
      pyEndsWith (pyLower filename) ".pdf" = true → content.length ≠ 0 →
      pdfplumberText content = Except.ok raw → pyStrip (pyStrip raw) ≠ "" →
      (((List.range (chunkText max_chunk_size (pyStrip raw)).length).map
          fun k => parseChunkFindings (responses k)).flatten).all isDict = false →
      upload_contract (some apiKey) oracle pdfplumberText newId now filename content store
        = (Except.error ⟨500, "Processing failed: " ++ pydantic_error_message⟩,
           store ++ [⟨newId, filename,
            ((List.range (chunkText max_chunk_size (pyStrip raw)).length).map
              fun k => parseChunkFindings (responses k)).flatten, now⟩])) := by
  have hcore : ∀ (hok : ∀ i p, oracle i p = Except.ok (responses i)),
      pyEndsWith (pyLower filename) ".pdf" = true → content.length ≠ 0 →
      pdfplumberText content = Except.ok raw → pyStrip (pyStrip raw) ≠ "" →
      uploadCore (some apiKey) oracle pdfplumberText newId now filename content
        = Except.ok ⟨newId, filename,
            ((List.range (chunkText max_chunk_size (pyStrip raw)).length).map
              fun k => parseChunkFindings (responses k)).flatten, now⟩ := by
    intro hok hpdf hne hex htext
    have hrc := runChunks_ok oracle (chunkText max_chunk_size (pyStrip raw)).length
      responses hok (chunkText max_chunk_size (pyStrip raw)) 0
    have hanalyze : analyze_contract_with_llm (some apiKey) oracle (pyStrip raw)
        = Except.ok (((List.range (chunkText max_chunk_size (pyStrip raw)).length).map
            fun k => parseChunkFindings (responses k)).flatten) := by
      unfold analyze_contract_with_llm
      simp only [hrc]
      simp
    rw [uploadCore_valid (some apiKey) oracle pdfplumberText newId now filename content raw
      hpdf hne hex htext]
    simp only [hanalyze]
  refine ⟨?_, ?_, ?_⟩
  · intro rec store' h
    unfold upload_contract at h
    cases hc : uploadCore (some apiKey) oracle pdfplumberText newId now filename content with
    | error e =>
      rw [hc] at h
      exact absurd h (by simp)
    | ok r =>
      simp only [hc] at h
      split at h
      · next hdict =>
        have hp : (Except.ok r : Except HTTPError ContractAnalysisResult)
            = Except.ok rec := congrArg Prod.fst h
        cases hp
        exact hdict
      · exact absurd (congrArg Prod.fst h) (by simp)
  · intro hok hpdf hne hex htext hdict
    unfold upload_contract
    simp only [hcore hok hpdf hne hex htext]
    rw [if_pos hdict]
  · intro hok hpdf hne hex htext hdict
    unfold upload_contract
    simp only [hcore hok hpdf hne hex htext]
    rw [if_neg (by simp [hdict])]

/-- Witness for C1 amended at concrete inputs: an all-object payload is
returned with its objects verbatim; a payload with a non-object element
errors 500 yet is persisted. -/
theorem c1_amended_dict_only_witness :
    ((⟨"id0", "a.pdf", [Json.obj []], "t0"⟩ :
        ContractAnalysisResult).analysis_results.all isDict = true) ∧
    (upload_contract (some "k") (fun _ _ => Except.ok "[\x7b\x7d]")
        (fun _ => Except.ok "hello") "id0" "t0" "a.pdf" [1] []
      = (Except.ok ⟨"id0", "a.pdf",
          ((List.range (chunkText max_chunk_size (pyStrip "hello")).length).map
            fun _ => parseChunkFindings "[\x7b\x7d]").flatten, "t0"⟩,
         [⟨"id0", "a.pdf",
          ((List.range (chunkText max_chunk_size (pyStrip "hello")).length).map
            fun _ => parseChunkFindings "[\x7b\x7d]").flatten, "t0"⟩])) ∧
    (upload_contract (some "k") (fun _ _ => Except.ok "[42]")
        (fun _ => Except.ok "hello") "id0" "t0" "a.pdf" [1] []
      = (Except.error ⟨500, "Processing failed: " ++ pydantic_error_message⟩,
         [⟨"id0", "a.pdf",
          ((List.range (chunkText max_chunk_size (pyStrip "hello")).length).map
            fun _ => parseChunkFindings "[42]").flatten, "t0"⟩])) :=
  ⟨(c1_amended_dict_only "k" (fun _ _ => Except.ok "[\x7b\x7d]")
      (fun _ => Except.ok "hello") "id0" "t0" "a.pdf" [1] [] "hello"
      (fun _ => "[\x7b\x7d]")).1
    ⟨"id0", "a.pdf", [Json.obj []], "t0"⟩ [⟨"id0", "a.pdf", [Json.obj []], "t0"⟩] rfl,
   (c1_amended_dict_only "k" (fun _ _ => Except.ok "[\x7b\x7d]")
      (fun _ => Except.ok "hello") "id0" "t0" "a.pdf" [1] [] "hello"
      (fun _ => "[\x7b\x7d]")).2.1
    (fun _ _ => rfl) (by decide) (by decide) rfl (by decide) rfl,
   (c1_amended_dict_only "k" (fun _ _ => Except.ok "[42]")
      (fun _ => Except.ok "hello") "id0" "t0" "a.pdf" [1] [] "hello"
      (fun _ => "[42]")).2.2
    (fun _ _ => rfl) (by decide) (by decide) rfl (by decide) rfl⟩

/-- C6 counterexample: a `.pdf` upload with non-empty bytes whose extraction
fails is answered with status 400 (`Error processing PDF: ...`), not the
claimed 500. -/
theorem c6_counterexample :
    (upload_contract (some "k") (fun _ _ => Except.ok "[]")
        (fun _ => Except.error "boom") "id0" "t0" "a.pdf" [1] []).1
      = Except.error ⟨400, "Error processing PDF: boom"⟩ ∧ (400 : Nat) ≠ 500 :=
  ⟨rfl, by decide⟩

/-- C6 amended: extraction failure is answered 400 with the
`Error processing PDF: ` detail; wrong extension, empty file, and no
extractable text are each answered 400 with their messages, the store always
left unchanged. -/
theorem c6_amended_statuses (apiKey : Option String)
    (oracle : Nat → String → Except String String)
    (pdfplumberText : List Nat → Except String String)
    (newId now filename : String) (content : List Nat)
    (store : List ContractAnalysisResult) :
    (pyEndsWith (pyLower filename) ".pdf" = false →
      upload_contract apiKey oracle pdfplumberText newId now filename content store
        = (Except.error ⟨400, "Only PDF files are currently supported"⟩, store)) ∧
    (pyEndsWith (pyLower filename) ".pdf" = true → content.length = 0 →
      upload_contract apiKey oracle pdfplumberText newId now filename content store
        = (Except.error ⟨400, "Empty file uploaded"⟩, store)) ∧
    (∀ e, pyEndsWith (pyLower filename) ".pdf" = true → content.length ≠ 0 →
      pdfplumberText content = Except.error e →
      upload_contract apiKey oracle pdfplumberText newId now filename content store
        = (Except.error ⟨400, "Error processing PDF: " ++ e⟩, store)) ∧
    (∀ raw, pyEndsWith (pyLower filename) ".pdf" = true → content.length ≠ 0 →
      pdfplumberText content = Except.ok raw → pyStrip (pyStrip raw) = "" →
      upload_contract apiKey oracle pdfplumberText newId now filename content store
        = (Except.error ⟨400, "No text could be extracted from the PDF"⟩, store)) := by
  refine ⟨?_, ?_, ?_, ?_⟩
  · intro hext
    apply upload_contract_error
    unfold uploadCore
    rw [if_pos hext]
  · intro hpdf hlen
    apply upload_contract_error
    unfold uploadCore
    rw [if_neg (by simp [hpdf]), if_neg (pdf_filename_ne_empty filename hpdf), if_pos hlen]
  · intro e hpdf hlen hee
    apply upload_contract_error
    unfold uploadCore
    rw [if_neg (by simp [hpdf]), if_neg (pdf_filename_ne_empty filename hpdf), if_neg hlen]
    have hext : extract_text_from_pdf pdfplumberText content
        = Except.error ⟨400, "Error processing PDF: " ++ e⟩ := by
      unfold extract_text_from_pdf
      rw [hee]
    simp only [hext]
  · intro raw hpdf hlen hraw hstrip
    apply upload_contract_error
    unfold uploadCore
    rw [if_neg (by simp [hpdf]), if_neg (pdf_filename_ne_empty filename hpdf), if_neg hlen]
    have hext : extract_text_from_pdf pdfplumberText content
        = Except.ok (pyStrip raw) := by
      unfold extract_text_from_pdf
      rw [hraw]
    simp only [hext]
    rw [if_pos hstrip]

/-- Witness for C6 amended at concrete inputs covering all four branches. -/
theorem c6_amended_statuses_witness :
    (upload_contract (some "k") (fun _ _ => Except.ok "[]") (fun _ => Except.ok "hi")
        "id0" "t0" "a.txt" [1] []
      = (Except.error ⟨400, "Only PDF files are currently supported"⟩, [])) ∧
    (upload_contract (some "k") (fun _ _ => Except.ok "[]") (fun _ => Except.ok "hi")
        "id0" "t0" "a.pdf" [] []
      = (Except.error ⟨400, "Empty file uploaded"⟩, [])) ∧
    (upload_contract (some "k") (fun _ _ => Except.ok "[]") (fun _ => Except.error "boom")
        "id0" "t0" "a.pdf" [1] []
      = (Except.error ⟨400, "Error processing PDF: boom"⟩, [])) ∧
    (upload_contract (some "k") (fun _ _ => Except.ok "[]") (fun _ => Except.ok "   ")
        "id0" "t0" "a.pdf" [1] []
      = (Except.error ⟨400, "No text could be extracted from the PDF"⟩, [])) :=
  ⟨(c6_amended_statuses (some "k") (fun _ _ => Except.ok "[]") (fun _ => Except.ok "hi")
      "id0" "t0" "a.txt" [1] []).1 (by decide),
   (c6_amended_statuses (some "k") (fun _ _ => Except.ok "[]") (fun _ => Except.ok "hi")
      "id0" "t0" "a.pdf" [] []).2.1 (by decide) rfl,
   (c6_amended_statuses (some "k") (fun _ _ => Except.ok "[]") (fun _ => Except.error "boom")
      "id0" "t0" "a.pdf" [1] []).2.2.1 "boom" (by decide) (by decide) rfl,
   (c6_amended_statuses (some "k") (fun _ _ => Except.ok "[]") (fun _ => Except.ok "   ")
      "id0" "t0" "a.pdf" [1] []).2.2.2 "   " (by decide) (by decide) rfl (by decide)⟩

/-- C10: an upload with an empty-string filename is rejected 400 by the
extension check with the wrong-file-type detail, and no reachable execution
produces the dedicated `No filename provided` error — that branch is dead
for every input. -/
theorem c10_no_filename_unreachable (apiKey : Option String)
    (oracle : Nat → String → Except String String)
    (pdfplumberText : List Nat → Except String String)
    (newId now : String) (content : List Nat)
    (store : List ContractAnalysisResult) :
    upload_contract apiKey oracle pdfplumberText newId now "" content store
      = (Except.error ⟨400, "Only PDF files are currently supported"⟩, store) ∧
    ∀ (filename : String) (hx : HTTPError),
      (upload_contract apiKey oracle pdfplumberText newId now filename content store).1
        = Except.error hx → hx.detail ≠ "No filename provided" := by
  constructor
  · apply upload_contract_error
    unfold uploadCore
    rw [if_pos (by decide)]
  · intro filename hx h
    unfold upload_contract at h
    cases hc : uploadCore apiKey oracle pdfplumberText newId now filename content with
    | error e =>
      rw [hc] at h
      have he : Except.error e = Except.error hx := h
      cases he
      exact uploadCore_detail_ne apiKey oracle pdfplumberText newId now filename content
        hx hc
    | ok r =>
      simp only [hc] at h
      split at h
      · exact absurd h (by simp)
      · have he : Except.error
            (⟨500, "Processing failed: " ++ pydantic_error_message⟩ : HTTPError)
            = Except.error hx := h
        cases he
        exact prefixed_ne 'P' "Processing failed: " pydantic_error_message
          "No filename provided" rfl (by decide)

/-- Witness for C10 at concrete inputs. -/
theorem c10_no_filename_unreachable_witness :
    (upload_contract none (fun _ _ => Except.error "x") (fun _ => Except.error "y")
        "i" "t" "" [] []
      = (Except.error ⟨400, "Only PDF files are currently supported"⟩, [])) ∧
    (⟨400, "Only PDF files are currently supported"⟩ : HTTPError).detail
      ≠ "No filename provided" :=
  ⟨(c10_no_filename_unreachable none (fun _ _ => Except.error "x")
      (fun _ => Except.error "y") "i" "t" [] []).1,
   (c10_no_filename_unreachable none (fun _ _ => Except.error "x")
      (fun _ => Except.error "y") "i" "t" [] []).2 "a.txt"
     ⟨400, "Only PDF files are currently supported"⟩ rfl⟩

end ContractAnalyzer
